import Mathlib

/-!
# Verification of the Pricing Execution Assistant cores

A shallow embedding, over exact rationals, of the pricing derivation
pipeline (`src/processing/new_pricing_processor.py`), the cross-dock
expansion and customer split (`src/processing/Variable_Pricing_VBCS.py`),
the VBCS combiner (`src/pages/pricing_execution_automation_view.py`),
and the series-fetch and forecast skeleton
(`src/processing/Market_Barometer_Processing.py`).

Pandas cells are modelled by `Cell` (missing value, string, or finite
number); float64 arithmetic is modelled by exact rational arithmetic, so
"computed as the sum" and "equals the sum" coincide by construction, as
they do for the very float values the code stores.  The statsmodels
model fits are external library calls and enter the embedding as
oracle parameters (a failed fit is `none`).
-/

namespace PricingExec

/-- A pandas cell of an object column: missing (NaN), a string, or a
finite number.  Non-finite floats reach the modelled code only through
the string spellings `inf`/`nan`, which the float parser below treats as
unparsable. -/
inductive Cell where
  | nan
  | str (s : String)
  | num (q : ℚ)
deriving DecidableEq, Inhabited

/-- Numeric value of a decimal digit character. -/
def digitVal (c : Char) : ℕ := c.toNat - '0'.toNat

/-- Consume the continuation of a Python digit group, `(digit | _ digit)*`:
accumulated value, count of digits consumed, unconsumed rest.  Mirrors
CPython's rule that an underscore must sit between two digits (a dangling
underscore is left unconsumed and fails the caller's end-of-input check). -/
def digitGroup : ℕ → ℕ → List Char → ℕ × ℕ × List Char
  | acc, cnt, '_' :: c :: rest =>
    if c.isDigit then digitGroup (acc * 10 + digitVal c) (cnt + 1) rest
    else (acc, cnt, '_' :: c :: rest)
  | acc, cnt, c :: rest =>
    if c.isDigit then digitGroup (acc * 10 + digitVal c) (cnt + 1) rest
    else (acc, cnt, c :: rest)
  | acc, cnt, [] => (acc, cnt, [])

/-- A Python `digitpart`: at least one digit, then `digitGroup`. -/
def digitpart : List Char → Option (ℕ × ℕ × List Char)
  | c :: rest => if c.isDigit then some (digitGroup (digitVal c) 1 rest) else none
  | [] => none

/-- Parse an optional exponent suffix, requiring the end of the input;
returns the signed exponent. -/
def expPart : List Char → Option ℤ
  | [] => some 0
  | c :: rest =>
    if c = 'e' ∨ c = 'E' then
      let se : ℤ × List Char :=
        match rest with
        | '+' :: r => (1, r)
        | '-' :: r => (-1, r)
        | r => (1, r)
      match digitpart se.2 with
      | some (e, _, []) => some (se.1 * (e : ℤ))
      | _ => none
    else none

/-- The mantissa of a Python float literal, `digits [. digits] | [digits] . digits`,
as a rational together with the unconsumed rest. -/
def mantissa (l : List Char) : Option (ℚ × List Char) :=
  match digitpart l with
  | some (ip, _, rest) =>
    match rest with
    | '.' :: r2 =>
      match digitpart r2 with
      | some (fp, fc, r3) => some ((ip : ℚ) + (fp : ℚ) / (10 : ℚ) ^ fc, r3)
      | none => some ((ip : ℚ), r2)
    | _ => some ((ip : ℚ), rest)
  | none =>
    match l with
    | '.' :: r2 =>
      match digitpart r2 with
      | some (fp, fc, r3) => some ((fp : ℚ) / (10 : ℚ) ^ fc, r3)
      | none => none
    | _ => none

/-- Model of Python `float(s)` on an already stripped character sequence,
over ℚ: optional sign, mantissa, optional exponent.  CPython additionally
accepts the spellings `inf`/`infinity`/`nan`, which have no rational
value; the model treats them as unparsable (they are not "pure numbers"). -/
def pyFloatChars? (l : List Char) : Option ℚ :=
  let sl : ℚ × List Char :=
    match l with
    | '+' :: r => (1, r)
    | '-' :: r => (-1, r)
    | r => (1, r)
  match mantissa sl.2 with
  | some (m, rest) =>
    match expPart rest with
    | some e => some (sl.1 * m * (10 : ℚ) ^ e)
    | none => none
  | none => none

/-- Model of Python `float(s)` on a string. -/
def pyFloat? (s : String) : Option ℚ := pyFloatChars? s.data

/-- Python `str.strip()` with no argument: drop leading and trailing
whitespace (the model covers the ASCII whitespace of the data). -/
def pyStrip (l : List Char) : List Char :=
  ((l.dropWhile Char.isWhitespace).reverse.dropWhile Char.isWhitespace).reverse

/-- Python `str.upper()` on one character (the data is ASCII; Python also
maps non-ASCII letters, which the model leaves unchanged). -/
def pyCharUpper (c : Char) : Char :=
  if 97 ≤ c.toNat && c.toNat ≤ 122 then Char.ofNat (c.toNat - 32) else c

/-- Python `str.upper()`. -/
def pyUpper (l : List Char) : List Char := l.map pyCharUpper

/-- Python `str.replace(ch, "")`: remove every occurrence of a character. -/
def removeChar (ch : Char) (l : List Char) : List Char :=
  l.filter (fun c => c != ch)

/-- Python string `<`: codepoint-lexicographic comparison of the
character sequences, a shorter string preceding its extensions. -/
def charListLt : List Char → List Char → Bool
  | [], [] => false
  | [], _ :: _ => true
  | _ :: _, [] => false
  | a :: as, b :: bs => decide (a < b) || (a == b && charListLt as bs)

/-- Python `a < b` on strings. -/
def pyStrLt (a b : String) : Bool := charListLt a.data b.data

/-- Substring containment on character sequences (an empty pattern is
contained everywhere), modelling a regex search for a literal pattern. -/
def charListSub : List Char → List Char → Bool
  | [], pat => pat.isEmpty
  | h :: t, pat => List.isPrefixOf pat (h :: t) || charListSub t pat

/-- Model of Python `str(val)` for a cell (`str` of the float NaN prints
`"nan"`).  Python prints a float as its shortest round-tripping decimal;
the model is exact for integral values (the `n.0` form) and falls back to
the rational's own notation otherwise, which only matters in the
lexicographic fallback between a numeric cell and a non-numeric string. -/
def cellStr : Cell → String
  | .nan => "nan"
  | .str s => s
  | .num q => if q.den = 1 then toString q.num ++ ".0" else toString q

/-- `parse_dollar` (new_pricing_processor.py:16): null becomes 0.0; a
string has `$` and `,` removed and is stripped, then parsed as a float,
defaulting to 0.0 when the parse fails; a number passes through. -/
def parse_dollar (c : Cell) : ℚ :=
  match c with
  | .nan => 0
  | .str s =>
    match pyFloatChars? (pyStrip (removeChar ',' (removeChar '$' s.data))) with
    | some q => q
    | none => 0
  | .num q => q

/-- `compare_volume_tiers` (new_pricing_processor.py:55): a missing tier
on either side passes; both tiers are stringified, stripped and
upper-cased; when both parse as Python floats the comparison is numeric
(`custom >= sell`), otherwise it is Python's codepoint-lexicographic
string comparison (`custom >= sell`). -/
def compare_volume_tiers (sell_to_tier custom_label_tier : Cell) : Bool :=
  match sell_to_tier, custom_label_tier with
  | .nan, _ => true
  | _, .nan => true
  | s, c =>
    let ss := pyUpper (pyStrip (cellStr s).data)
    let cs := pyUpper (pyStrip (cellStr c).data)
    match pyFloatChars? ss, pyFloatChars? cs with
    | some sn, some cn => decide (sn ≤ cn)
    | _, _ => !charListLt cs ss

/-! ## The price derivation pipeline (`process_uploaded_files`) -/

/-- One row of `Product_Class_Plant.csv`. -/
structure ProductRow where
  item : Cell
  itemDescription : Cell
  itemCategory : Cell
  marketIndexName : Cell
  plant : Cell
deriving DecidableEq

/-- One row of `Plant_Class_Plant Fees.csv`. -/
structure PlantFeeRow where
  plant : Cell
  marketIndexName : Cell
  classIFees : Cell
deriving DecidableEq

/-- One row of `Product_Milk Base Cost.csv` (columns used at line 230). -/
structure MilkCostRow where
  item : Cell
  baseMilkCost : Cell
  month : Cell
deriving DecidableEq

/-- One row of `Product_Processing_Pkg_Ing.csv` (columns used at line 238). -/
structure ProcessingRow where
  item : Cell
  totalProcessing : Cell
  packaging : Cell
  ingredients : Cell
deriving DecidableEq

/-- One row of `Sell-to_Volume Bracket_Fee.csv`. -/
structure SellToFeeRow where
  sellToVolumeBracket : Cell
  sellToVolumeFee : Cell
deriving DecidableEq

/-- One row of `Custom Label_Volume Bracket_Fee.csv` (bracket column
normalized at line 252). -/
structure CustomLabelFeeRow where
  customLabelBracket : Cell
  customLabelFee : Cell
deriving DecidableEq

/-- One row of `Pallet_Fee.csv`. -/
structure PalletFeeRow where
  pallet : Cell
  mixedPalletFee : Cell
deriving DecidableEq

/-- One row of `Delivery_Miles Tier_Drop Size Tier_Fee.csv` (columns
normalized at line 256). -/
structure DeliveryFeeRow where
  mileageFeeTier : Cell
  dropFeeTier : Cell
  deliveryCharge : Cell
deriving DecidableEq

/-- One row of `Product_UOM.csv` (columns used at line 289). -/
structure UomRow where
  item : Cell
  gallonsPerEach : Cell
  gallonsPerCase : Cell
deriving DecidableEq

/-- A pandas left merge: each left row is paired with every matching right
row (in right-table order), or kept once with NaN-filled right columns
when nothing matches.  Pandas merges do match NaN keys with NaN keys, so
plain cell equality in `keyMatch` is faithful. -/
def leftMerge {α β γ : Type} (ls : List α) (rs : List β) (keyMatch : α → β → Bool)
    (comb : α → β → γ) (dflt : α → γ) : List γ :=
  ls.flatMap fun l =>
    match rs.filter (keyMatch l) with
    | [] => [dflt l]
    | ms => ms.map (comb l)

/-- After step 1 (new_pricing_processor.py:220): products left-joined with
plant fees on (Plant, Market Index Name). -/
structure BaseJoinRow where
  prod : ProductRow
  classIFees : Cell
deriving DecidableEq

/-- After step 2 (line 229): milk base cost and month joined on Item. -/
structure MilkJoinRow where
  base : BaseJoinRow
  baseMilkCost : Cell
  month : Cell
deriving DecidableEq

/-- After step 3 (line 237): processing costs joined on Item. -/
structure CostJoinRow where
  milk : MilkJoinRow
  totalProcessing : Cell
  packaging : Cell
  ingredients : Cell
deriving DecidableEq

/-- The columns a sell-to fee row contributes to the cartesian join. -/
structure SellToCells where
  sellToVolumeBracket : Cell
  sellToVolumeFee : Cell
deriving DecidableEq

/-- The columns a custom-label fee row contributes. -/
structure CustomLabelCells where
  customLabelBracket : Cell
  customLabelFee : Cell
deriving DecidableEq

/-- The columns a pallet fee row contributes. -/
structure PalletCells where
  pallet : Cell
  mixedPalletFee : Cell
deriving DecidableEq

/-- The columns a delivery fee row contributes. -/
structure DeliveryCells where
  mileageFeeTier : Cell
  dropFeeTier : Cell
  deliveryCharge : Cell
deriving DecidableEq

/-- After step 4 (lines 265-268): the four fee dimensions attached by
cartesian (key=1) joins. -/
structure CartRow where
  cost : CostJoinRow
  sellTo : SellToCells
  customLabel : CustomLabelCells
  palletCells : PalletCells
  delivery : DeliveryCells
deriving DecidableEq

/-- After step 5 (line 288): UOM columns joined on Item. -/
structure UomJoinRow where
  cart : CartRow
  gallonsPerEach : Cell
  gallonsPerCase : Cell
deriving DecidableEq

/-- Step 1 (line 220): left merge on (Plant, Market Index Name). -/
def base_joins (products : List ProductRow) (plant_fees : List PlantFeeRow) :
    List BaseJoinRow :=
  leftMerge products plant_fees
    (fun p f => p.plant == f.plant && p.marketIndexName == f.marketIndexName)
    (fun p f => ⟨p, f.classIFees⟩) (fun p => ⟨p, .nan⟩)

/-- Step 2 (line 229): left merge of the milk base cost table on Item. -/
def with_milk_cost (bj : List BaseJoinRow) (milk : List MilkCostRow) :
    List MilkJoinRow :=
  leftMerge bj milk (fun b m => b.prod.item == m.item)
    (fun b m => ⟨b, m.baseMilkCost, m.month⟩) (fun b => ⟨b, .nan, .nan⟩)

/-- Step 3 (line 237): left merge of the processing cost table on Item. -/
def with_processing_costs (mj : List MilkJoinRow) (pc : List ProcessingRow) :
    List CostJoinRow :=
  leftMerge mj pc (fun m p => m.base.prod.item == p.item)
    (fun m p => ⟨m, p.totalProcessing, p.packaging, p.ingredients⟩)
    (fun m => ⟨m, .nan, .nan, .nan⟩)

/-- Step 4 (lines 265-268): the chain temp1, temp2, temp3, final_result of
key=1 left merges; every pair of rows matches, so each is a cartesian
product, and an empty fee table NaN-fills its columns as a left merge does. -/
def cartesian_joins (cj : List CostJoinRow) (sell_to : List SellToFeeRow)
    (custom_label : List CustomLabelFeeRow) (pallet_fees : List PalletFeeRow)
    (delivery : List DeliveryFeeRow) : List CartRow :=
  let temp1 := leftMerge cj sell_to (fun _ _ => true)
    (fun c s => (c, SellToCells.mk s.sellToVolumeBracket s.sellToVolumeFee))
    (fun c => (c, ⟨.nan, .nan⟩))
  let temp2 := leftMerge temp1 custom_label (fun _ _ => true)
    (fun c s => (c, CustomLabelCells.mk s.customLabelBracket s.customLabelFee))
    (fun c => (c, ⟨.nan, .nan⟩))
  let temp3 := leftMerge temp2 pallet_fees (fun _ _ => true)
    (fun c s => (c, PalletCells.mk s.pallet s.mixedPalletFee))
    (fun c => (c, ⟨.nan, .nan⟩))
  let final := leftMerge temp3 delivery (fun _ _ => true)
    (fun c s => (c, DeliveryCells.mk s.mileageFeeTier s.dropFeeTier s.deliveryCharge))
    (fun c => (c, ⟨.nan, .nan, .nan⟩))
  final.map fun r => ⟨r.1.1.1.1, r.1.1.1.2, r.1.1.2, r.1.2, r.2⟩

/-- The business-rule filter (lines 274-282): keep a joined combination
when `compare_volume_tiers` accepts its sell-to and custom-label brackets. -/
def volume_tier_filter (rows : List CartRow) : List CartRow :=
  rows.filter fun r =>
    compare_volume_tiers r.sellTo.sellToVolumeBracket r.customLabel.customLabelBracket

/-- Step 5 (line 288): left merge of the UOM table on Item. -/
def with_uom (rows : List CartRow) (uom : List UomRow) : List UomJoinRow :=
  leftMerge rows uom (fun r u => r.cost.milk.base.prod.item == u.item)
    (fun r u => ⟨r, u.gallonsPerEach, u.gallonsPerCase⟩)
    (fun r => ⟨r, .nan, .nan⟩)

/-- A fully derived output row (the columns of `correct_column_order`,
line 454, with the cost columns already numeric). -/
structure FinalRow where
  month : Cell
  item : Cell
  itemDescription : Cell
  itemCategory : Cell
  marketIndexName : Cell
  plant : Cell
  sellToVolumeBracket : Cell
  customLabelBracket : Cell
  pallet : Cell
  mileageFeeTier : Cell
  dropFeeTier : Cell
  classIFees : ℚ
  baseMilkCost : ℚ
  shrink : ℚ
  packaging : ℚ
  ingredients : ℚ
  totalProcessing : ℚ
  sellToVolumeFee : ℚ
  customLabelFee : ℚ
  mixedPalletFee : ℚ
  fob : ℚ
  deliveryCharge : ℚ
  delivered : ℚ
  gallonsPerEach : Cell
  gallonsPerCase : Cell
deriving DecidableEq, Inhabited

/-- The numeric conversions and derived columns (lines 297-370): every
cost column through `parse_dollar`; shrink = (base milk + class I) * 0.02
(line 345); FOB = the sum of the nine `fob_cost_cols` in their listed
order (line 361); delivered = FOB + delivery charge (line 370). -/
def computeRow (u : UomJoinRow) : FinalRow :=
  let base := parse_dollar u.cart.cost.milk.baseMilkCost
  let classI := parse_dollar u.cart.cost.milk.base.classIFees
  let totalProcessing := parse_dollar u.cart.cost.totalProcessing
  let packaging := parse_dollar u.cart.cost.packaging
  let ingredients := parse_dollar u.cart.cost.ingredients
  let sellToVolumeFee := parse_dollar u.cart.sellTo.sellToVolumeFee
  let customLabelFee := parse_dollar u.cart.customLabel.customLabelFee
  let mixedPalletFee := parse_dollar u.cart.palletCells.mixedPalletFee
  let shrink := (base + classI) * (2 / 100)
  let fob := base + classI + shrink + totalProcessing + packaging + ingredients
    + sellToVolumeFee + customLabelFee + mixedPalletFee
  let deliveryCharge := parse_dollar u.cart.delivery.deliveryCharge
  { month := u.cart.cost.milk.month
    item := u.cart.cost.milk.base.prod.item
    itemDescription := u.cart.cost.milk.base.prod.itemDescription
    itemCategory := u.cart.cost.milk.base.prod.itemCategory
    marketIndexName := u.cart.cost.milk.base.prod.marketIndexName
    plant := u.cart.cost.milk.base.prod.plant
    sellToVolumeBracket := u.cart.sellTo.sellToVolumeBracket
    customLabelBracket := u.cart.customLabel.customLabelBracket
    pallet := u.cart.palletCells.pallet
    mileageFeeTier := u.cart.delivery.mileageFeeTier
    dropFeeTier := u.cart.delivery.dropFeeTier
    classIFees := classI
    baseMilkCost := base
    shrink := shrink
    packaging := packaging
    ingredients := ingredients
    totalProcessing := totalProcessing
    sellToVolumeFee := sellToVolumeFee
    customLabelFee := customLabelFee
    mixedPalletFee := mixedPalletFee
    fob := fob
    deliveryCharge := deliveryCharge
    delivered := fob + deliveryCharge
    gallonsPerEach := u.gallonsPerEach
    gallonsPerCase := u.gallonsPerCase }

/-- `drop_duplicates(keep='first')` generalized over a key: keep a row
when its key has not been seen in an earlier row. -/
def dedupOn {α κ : Type} [DecidableEq κ] (key : α → κ) :
    List α → List κ → List α
  | [], _ => []
  | x :: xs, seen =>
    if key x ∈ seen then dedupOn key xs seen
    else x :: dedupOn key xs (key x :: seen)

/-- The identifying key tuple of line 373. -/
def finalKey (r : FinalRow) : List Cell :=
  [r.item, r.plant, r.sellToVolumeBracket, r.customLabelBracket, r.pallet,
   r.mileageFeeTier, r.dropFeeTier, r.marketIndexName]

/-- Ascending cell order for `sort_values`: pandas sorts like values and
places NaN last; a mixed numeric/string object column would raise there,
which the model totalizes by ranking numbers before strings. -/
def cellRank : Cell → ℕ
  | .num _ => 0
  | .str _ => 1
  | .nan => 2

/-- Strict cell order used by the final sort. -/
def cellLtB : Cell → Cell → Bool
  | .num a, .num b => decide (a < b)
  | .str a, .str b => pyStrLt a b
  | a, b => decide (cellRank a < cellRank b)

/-- Strict lexicographic order on key tuples. -/
def cellsLtB : List Cell → List Cell → Bool
  | a :: as, b :: bs => cellLtB a b || (a == b && cellsLtB as bs)
  | _, _ => false

/-- The `sort_values` key of line 393. -/
def sortKey (r : FinalRow) : List Cell :=
  [r.item, r.sellToVolumeBracket, r.customLabelBracket, r.pallet,
   r.mileageFeeTier, r.dropFeeTier]

/-- The derived row set before deduplication: joins, cartesian product,
volume-tier filter, UOM join, numeric derivation. -/
def derived_rows (products : List ProductRow) (plant_fees : List PlantFeeRow)
    (milk : List MilkCostRow) (processing : List ProcessingRow)
    (sell_to : List SellToFeeRow) (custom_label : List CustomLabelFeeRow)
    (pallet_fees : List PalletFeeRow) (delivery : List DeliveryFeeRow)
    (uom : List UomRow) : List FinalRow :=
  let joined := with_processing_costs
    (with_milk_cost (base_joins products plant_fees) milk) processing
  let cart := cartesian_joins joined sell_to custom_label pallet_fees delivery
  (with_uom (volume_tier_filter cart) uom).map computeRow

/-- Insert into a sorted list, keeping earlier equal keys first. -/
def insertSorted {α : Type} (le : α → α → Bool) (x : α) : List α → List α
  | [] => [x]
  | y :: ys => if le x y then x :: y :: ys else y :: insertSorted le x ys

/-- A deterministic comparison sort standing for `sort_values` (pandas
uses a deterministic quicksort there; the exact order among equal keys is
immaterial to every property stated below). -/
def sortBy {α : Type} (le : α → α → Bool) : List α → List α
  | [] => []
  | x :: xs => insertSorted le x (sortBy le xs)

/-- `process_uploaded_files` (new_pricing_processor.py:123), from the
joins to the deduplicated, sorted output rows (lines 216-395); the
parquet emission and dtype downcasts that follow do not change the rows'
values in the exact-arithmetic model. -/
def process_uploaded_files (products : List ProductRow)
    (plant_fees : List PlantFeeRow) (milk : List MilkCostRow)
    (processing : List ProcessingRow) (sell_to : List SellToFeeRow)
    (custom_label : List CustomLabelFeeRow) (pallet_fees : List PalletFeeRow)
    (delivery : List DeliveryFeeRow) (uom : List UomRow) : List FinalRow :=
  sortBy (fun a b => !cellsLtB (sortKey b) (sortKey a))
    (dedupOn finalKey
      (derived_rows products plant_fees milk processing sell_to custom_label
        pallet_fees delivery uom) [])

/-! ## Cross-dock expansion and the customer split (`Variable_Pricing_VBCS.py`) -/

/-- A VBCS-formatted row: the three customer/site columns the cross-dock
logic drops and replaces, and the remaining (price and date) columns
carried opaquely as `rest` — `handle_crossdock` never reads them. -/
structure VbcsRow (α : Type) where
  customername : Cell
  shiptositename : Cell
  customersitenumber : Cell
  rest : α
deriving DecidableEq

/-- One row of the customer/site extract `Customer_Extract_Report.csv`
(columns selected at Variable_Pricing_VBCS.py:1730). -/
structure SiteRow where
  partyName : Cell
  partySiteNumber : Cell
  partySiteName : Cell
deriving DecidableEq

/-- `Series.str.contains(pat, case=False, na=False)` for an alternation
of (literal, already upper-cased) patterns: a non-string cell gives NaN
under `.str`, and `na=False` maps that to False. -/
def strContainsCI (c : Cell) (pats : List String) : Bool :=
  match c with
  | .str s => pats.any fun p => charListSub (pyUpper s.data) p.data
  | _ => false

/-- Pandas `==` of a cell against a string: NaN and numbers compare
unequal. -/
def cellEqStr (c : Cell) (t : String) : Bool :=
  match c with
  | .str s => s == t
  | _ => false

/-- Pandas `.isin(list-of-strings)`: NaN and numbers are not members. -/
def cellIsin (c : Cell) (ts : List String) : Bool :=
  match c with
  | .str s => ts.contains s
  | _ => false

/-- The two customers excluded from URM/TOPCO handling
(Variable_Pricing_VBCS.py:1757). -/
def unwanted_customers : List String :=
  ["DFS Gourmet Specialties, Inc., dba Better Butter",
   "FAIRFIELD GOURMET FOODS"]

/-- Line 1720: the Winco group. -/
def winco_initial {α : Type} (vbcs : List (VbcsRow α)) : List (VbcsRow α) :=
  vbcs.filter fun r => strContainsCI r.customername ["WINCO"]

/-- Line 1721: everything else. -/
def other_customers {α : Type} (vbcs : List (VbcsRow α)) : List (VbcsRow α) :=
  vbcs.filter fun r => !strContainsCI r.customername ["WINCO"]

/-- Line 1724: the Winco hub template row(s). -/
def winco_source_site {α : Type} (vbcs : List (VbcsRow α)) : List (VbcsRow α) :=
  (winco_initial vbcs).filter fun r =>
    cellEqStr r.shiptositename "WINCO 002 KENNEWICK DSD"

/-- Lines 1727-1730: Winco destination sites — group match on Party Name,
hub site excluded (a pandas `!=` keeps NaN site names). -/
def winco_dest_sites (directory : List SiteRow) : List SiteRow :=
  directory.filter fun s =>
    strContainsCI s.partyName ["WINCO"] &&
      !cellEqStr s.partySiteName "WINCO 002 KENNEWICK DSD"

/-- The cross-join row of lines 1736-1743: the template's price columns
with the destination's customer/site columns renamed in. -/
def substSite {α : Type} (s : VbcsRow α) (d : SiteRow) : VbcsRow α :=
  ⟨d.partyName, d.partySiteName, d.partySiteNumber, s.rest⟩

/-- Lines 1733-1748: the Winco expansion, a no-op when there is no hub
template row or no destination site. -/
def winco_final {α : Type} (vbcs : List (VbcsRow α)) (directory : List SiteRow) :
    List (VbcsRow α) :=
  if (winco_source_site vbcs).isEmpty || (winco_dest_sites directory).isEmpty then
    winco_initial vbcs
  else
    winco_initial vbcs ++
      (winco_source_site vbcs).flatMap fun s =>
        (winco_dest_sites directory).map (substSite s)

/-- Lines 1752-1764: the URM/TOPCO group, with the unwanted customers
excluded. -/
def urm_customers {α : Type} (vbcs : List (VbcsRow α)) : List (VbcsRow α) :=
  ((other_customers vbcs).filter fun r =>
      strContainsCI r.customername ["URM", "TOPCO"]).filter
    fun r => !cellIsin r.customername unwanted_customers

/-- Lines 1766-1774: the non-URM rows, with the unwanted customers routed
back in (they belong to batch handling). -/
def final_other_customers {α : Type} (vbcs : List (VbcsRow α)) : List (VbcsRow α) :=
  ((other_customers vbcs).filter fun r =>
      !strContainsCI r.customername ["URM", "TOPCO"]) ++
    (other_customers vbcs).filter fun r => cellIsin r.customername unwanted_customers

/-- Line 1777: the URM hub template row(s). -/
def urm_source_site {α : Type} (vbcs : List (VbcsRow α)) : List (VbcsRow α) :=
  (urm_customers vbcs).filter fun r => cellEqStr r.shiptositename "TOWN PUMP"

/-- Lines 1781-1785: URM destination sites — group match on Party Name,
the hub and warehouse sites and the unwanted customers excluded. -/
def urm_dest_sites (directory : List SiteRow) : List SiteRow :=
  directory.filter fun s =>
    strContainsCI s.partyName ["URM", "TOPCO"] &&
      !cellIsin s.partySiteName
        ["TOWN PUMP", "URM WHSE SPOKANE HTST", "URM WHSE SPOKANE"] &&
      !cellIsin s.partyName unwanted_customers

/-- Lines 1787-1799: the URM/TOPCO expansion. -/
def urm_final {α : Type} (vbcs : List (VbcsRow α)) (directory : List SiteRow) :
    List (VbcsRow α) :=
  if (urm_source_site vbcs).isEmpty || (urm_dest_sites directory).isEmpty then
    urm_customers vbcs
  else
    urm_customers vbcs ++
      (urm_source_site vbcs).flatMap fun s =>
        (urm_dest_sites directory).map (substSite s)

/-- `handle_crossdock` (Variable_Pricing_VBCS.py:1714): the final
concatenation of line 1802. -/
def handle_crossdock {α : Type} (vbcs : List (VbcsRow α))
    (directory : List SiteRow) : List (VbcsRow α) :=
  final_other_customers vbcs ++ winco_final vbcs directory ++
    urm_final vbcs directory

/-- Line 156: the URM/TOPCO output split (contains URM or TOPCO,
case-insensitive), de-duplicated at line 161. -/
def urm_vbcs {α : Type} [DecidableEq α] (rows : List (VbcsRow α)) :
    List (VbcsRow α) :=
  dedupOn id (rows.filter fun r => strContainsCI r.customername ["URM", "TOPCO"]) []

/-- Line 157: the Winco output split, de-duplicated at line 162. -/
def winco_vbcs {α : Type} [DecidableEq α] (rows : List (VbcsRow α)) :
    List (VbcsRow α) :=
  dedupOn id (rows.filter fun r => strContainsCI r.customername ["WINCO"]) []

/-- Line 158: the batch output split (contains none of URM, TOPCO,
WINCO), de-duplicated at line 163.  The later `Pricelistname` overwrite
(lines 166-168) touches a price column inside `rest` identically in all
three splits and does not move rows between them. -/
def batch_vbcs {α : Type} [DecidableEq α] (rows : List (VbcsRow α)) :
    List (VbcsRow α) :=
  dedupOn id
    (rows.filter fun r => !strContainsCI r.customername ["URM", "TOPCO", "WINCO"]) []

/-! ## The forecast engine skeleton (`get_forecast_data`) -/

/-- One forecast output row; the Date is a month serial number. -/
structure ForecastPoint where
  date : ℕ
  baseline : ℚ
  upper : ℚ
  lower : ℚ
deriving DecidableEq

/-- `pct_change() * 100` on consecutive values, one entry per step from
the second observation on (line 513); `none` is the NaN of a 0→0 step
(0/0) that the following `dropna` removes.  The leading NaN of
`pct_change` never materializes here.  A 0→v step is an infinity in
float arithmetic, which `dropna` keeps; the model keeps it as the junk
value Lean assigns a division by zero, which is faithful for every
property below because kept values only feed the abstract model-fit
oracles. -/
def momPctChange (values : List ℚ) : List (Option ℚ) :=
  values.zipWith
    (fun prev curr =>
      if prev = 0 ∧ curr = 0 then none else some ((curr - prev) / prev * 100))
    values.tail

/-- The sequential compounding of lines 550-554 and 575-603:
`value[t] = value[t-1] * (1 + pct[t] / 100)` starting from the last
observed value. -/
def compound (last : ℚ) : List ℚ → List ℚ
  | [] => []
  | p :: ps =>
    let v := last * (1 + p / 100)
    v :: compound v ps

/-- The row construction of lines 611-618, pairing each future date with
its baseline and bounds (all four lists have the horizon's length). -/
def rowsZip : List ℕ → List ℚ → List ℚ → List ℚ → List ForecastPoint
  | d :: ds, b :: bs, u :: us, l :: ls => ⟨d, b, u, l⟩ :: rowsZip ds bs us ls
  | _, _, _, _ => []

/-- What one series produces: skipped (the bare `continue` of lines 508
and 517, which is not an error report), or its forecast rows.  The outer
`except` of line 620 is unreachable in the total model, so no error
outcome exists for the skip conditions. -/
inductive SeriesOutcome where
  | skipped
  | forecast (rows : List ForecastPoint)
deriving DecidableEq

/-- The fitted-model oracle types: `hw` stands for
`ExponentialSmoothing(...).fit().forecast(horizon)` and `sarima` for the
`(lower, upper)` rows of `SARIMAX(...).get_forecast(horizon).conf_int()`;
`none` is a raised fit exception.  statsmodels returns exactly the
requested number of steps, which the subtype records. -/
def HwOracle : Type := List ℚ → (n : ℕ) → Option { l : List ℚ // l.length = n }

/-- The interval-model oracle; see `HwOracle`. -/
def SarimaOracle : Type :=
  List ℚ → (n : ℕ) → Option { l : List (ℚ × ℚ) // l.length = n }

/-- The date sort of line 505. -/
def seriesSorted (obs : List (ℕ × ℚ)) : List (ℕ × ℚ) :=
  sortBy (fun a b => decide (a.1 ≤ b.1)) obs

/-- The working signal `y` of line 536: month-over-month % change of the
date-sorted values, NaNs dropped. -/
def seriesY (obs : List (ℕ × ℚ)) : List ℚ :=
  (momPctChange ((seriesSorted obs).map Prod.snd)).reduceOption

/-- `last_value` (line 520): the last observed value in date order. -/
def seriesLast (obs : List (ℕ × ℚ)) : ℚ :=
  ((seriesSorted obs).map Prod.snd).getLastD 0

/-- The per-series body of `get_forecast_data`
(Market_Barometer_Processing.py:504-618): skip under 12 observations
(line 507); take the month-over-month % change of the date-sorted values
and drop its NaNs, skip under 6 remaining points (line 516); forecast
with Holt-Winters, falling back to a flat continuation of the last
observed value (line 558); bound with SARIMA confidence intervals,
falling back to baseline ±10% (lines 607-608); compound percentages back
to levels sequentially from the last observed value. -/
def get_forecast_series (hw : HwOracle) (sarima : SarimaOracle) (horizon : ℕ)
    (obs : List (ℕ × ℚ)) : SeriesOutcome :=
  if obs.length < 12 then .skipped
  else
    let y := seriesY obs
    if y.length < 6 then .skipped
    else
      let lastValue := seriesLast obs
      let lastDate := ((seriesSorted obs).map Prod.fst).getLastD 0
      let futureDates := (List.range horizon).map fun i => lastDate + i + 1
      let baseline :=
        match hw y horizon with
        | some fc => compound lastValue fc.1
        | none => List.replicate horizon lastValue
      let ul :=
        match sarima y horizon with
        | some ci =>
          (compound lastValue (ci.1.map Prod.snd),
           compound lastValue (ci.1.map Prod.fst))
        | none =>
          (baseline.map fun v => v * (11 / 10),
           baseline.map fun v => v * (9 / 10))
      .forecast (rowsZip futureDates baseline ul.1 ul.2)

/-- The rows a series outcome contributes to the output. -/
def outcomeRows : SeriesOutcome → List ForecastPoint
  | .skipped => []
  | .forecast rows => rows

/-- The output ordering of line 630: by (Series, Date). -/
def seriesDateLe (a b : String × ForecastPoint) : Bool :=
  pyStrLt a.1 b.1 || (a.1 == b.1 && decide (a.2.date ≤ b.2.date))

/-- `get_forecast_data` over a per-series view of the input frame (one
entry per distinct series name, in first-appearance order, with its
observations): each series' outcome rows, tagged, concatenated, sorted
by (Series, Date) (lines 502-630). -/
def get_forecast_data (hw : HwOracle) (sarima : SarimaOracle) (horizon : ℕ)
    (seriesList : List (String × List (ℕ × ℚ))) : List (String × ForecastPoint) :=
  sortBy seriesDateLe
    (seriesList.flatMap fun p =>
      (outcomeRows (get_forecast_series hw sarima horizon p.2)).map fun r => (p.1, r))

/-! ## Bulk series fetch (`fetch_all_fred_data`, `fetch_all_eia_data`) -/

/-- One normalized observation row (Date, Value, Series, Source). -/
structure ObsRow where
  date : Cell
  value : Cell
  series : String
  source : String
deriving DecidableEq

/-- `FRED_SERIES` (Market_Barometer_Processing.py:38). -/
def FRED_SERIES : List (String × String) :=
  [("PPI Food Industry", "PCU311311"),
   ("PPI All Commodities", "PPIACO"),
   ("PPI Maintenance/Repair Construction", "WPUIP2320001"),
   ("PPI Paperboard", "WPU091411"),
   ("PPI Plastics Material and Resin Manufacturing", "PCU325211325211"),
   ("PPI Chocolate and Confectionery Manufacturing", "PCU3113531135"),
   ("Global Price of Cocoa", "PCOCOUSDM"),
   ("Sugar Beet Sugar Price", "WPU02530702"),
   ("Avg Hourly Earnings Total Private", "CES0500000003"),
   ("Wages Private Industry", "ECIWAG"),
   ("Wood Pallets Price", "PCU3219203219205"),
   ("West Coast Diesel Price", "GASDESWCW"),
   ("US Diesel Sales Price", "GASDESW"),
   ("Natural Gas Price (Henry Hub)", "MHHNGSP")]

/-- The route and facet parameters of one EIA V2 series. -/
structure EiaSeriesConfig where
  route : String
  params : List (String × String)
deriving DecidableEq

/-- `EIA_SERIES` (Market_Barometer_Processing.py:56). -/
def EIA_SERIES : List (String × EiaSeriesConfig) :=
  [("WTI Crude Oil",
    ⟨"petroleum/pri/spt",
     [("frequency", "daily"), ("data[0]", "value"), ("facets[series][]", "RWTC")]⟩),
   ("Electricity Price Industrial - WA",
    ⟨"electricity/retail-sales",
     [("frequency", "monthly"), ("data[0]", "price"), ("facets[stateid][]", "WA"),
      ("facets[sectorid][]", "IND")]⟩),
   ("Electricity Price Industrial - OR",
    ⟨"electricity/retail-sales",
     [("frequency", "monthly"), ("data[0]", "price"), ("facets[stateid][]", "OR"),
      ("facets[sectorid][]", "IND")]⟩),
   ("Electricity Price Industrial - ID",
    ⟨"electricity/retail-sales",
     [("frequency", "monthly"), ("data[0]", "price"), ("facets[stateid][]", "ID"),
      ("facets[sectorid][]", "IND")]⟩),
   ("Electricity Price Industrial - MT",
    ⟨"electricity/retail-sales",
     [("frequency", "monthly"), ("data[0]", "price"), ("facets[stateid][]", "MT"),
      ("facets[sectorid][]", "IND")]⟩)]

/-- The shared fetch loop of lines 325-335 and 349-359: one fetch per
configured series (a per-series fetcher returns its normalized rows, an
empty frame standing for any fetch or normalization failure, as
`fetch_fred_series`/`fetch_eia_series` catch their own exceptions); an
empty result appends the tagged name to the failure list, a non-empty
one appends the frame to the success list. -/
def fetch_all_aux {β γ : Type} (fetch : String → β → List γ) (tag : String) :
    List (String × β) → List (List γ) × List String
  | [] => ([], [])
  | p :: rest =>
    let df := fetch p.1 p.2
    let r := fetch_all_aux fetch tag rest
    if df.isEmpty then (r.1, (p.1 ++ tag) :: r.2) else (df :: r.1, r.2)

/-- `fetch_all_fred_data` (line 314), with the per-series fetch as an
oracle over (series name, series id). -/
def fetch_all_fred_data (fetch : String → String → List ObsRow) :
    List (List ObsRow) × List String :=
  fetch_all_aux fetch " (FRED)" FRED_SERIES

/-- `fetch_all_eia_data` (line 338), with the per-series fetch as an
oracle over (series name, series config). -/
def fetch_all_eia_data (fetch : String → EiaSeriesConfig → List ObsRow) :
    List (List ObsRow) × List String :=
  fetch_all_aux fetch " (EIA)" EIA_SERIES

/-! ## The VBCS combiner (`run_combine_vbcs`) -/

/-- One uploaded CSV: its file name and its parsed rows. -/
structure UploadedFile where
  name : String
  rows : List (List Cell)
deriving DecidableEq

/-- `run_combine_vbcs` (pricing_execution_automation_view.py:693-719):
each file's rows are truncated to the first 21 columns (`iloc[:, :21]`,
a no-op at 21 columns or fewer), a Source_File column holding the file
name is appended, the tagged frames are concatenated in upload order,
and exact duplicate rows (tag included) are dropped keeping the first
occurrence, before the CSV is written. -/
def run_combine_vbcs (files : List UploadedFile) : List (List Cell) :=
  dedupOn id
    (files.flatMap fun f => f.rows.map fun r => r.take 21 ++ [Cell.str f.name]) []

/-! ## Concrete inputs used to witness the theorems -/

def wt_products : List ProductRow :=
  [⟨.str "IT1", .str "Gallon Milk", .str "Dairy", .str "M1", .str "P1"⟩]

def wt_plant_fees : List PlantFeeRow := [⟨.str "P1", .str "M1", .str "$0.10"⟩]

def wt_milk : List MilkCostRow := [⟨.str "IT1", .str "$2.00", .str "Jan"⟩]

def wt_processing : List ProcessingRow :=
  [⟨.str "IT1", .str "0.30", .str "0.20", .str "0.10"⟩]

def wt_sell_to : List SellToFeeRow := [⟨.str "B", .str "0.05"⟩]

def wt_custom_label : List CustomLabelFeeRow := [⟨.str "C", .str "0.04"⟩]

def wt_pallet_fees : List PalletFeeRow := [⟨.str "Full", .str "0.02"⟩]

def wt_delivery : List DeliveryFeeRow := [⟨.str "T1", .str "D1", .str "0.50"⟩]

def wt_uom : List UomRow := [⟨.str "IT1", .str "1", .str "4"⟩]

def wt_out : List FinalRow :=
  process_uploaded_files wt_products wt_plant_fees wt_milk wt_processing
    wt_sell_to wt_custom_label wt_pallet_fees wt_delivery wt_uom

def wt_row : FinalRow := wt_out.headD default

/-- A concrete joined combination with tiers B (sell-to) and C
(custom label). -/
def wt_cart : CartRow :=
  ⟨⟨⟨⟨⟨.str "IT1", .str "Gallon Milk", .str "Dairy", .str "M1", .str "P1"⟩,
      .str "$0.10"⟩, .str "$2.00", .str "Jan"⟩,
    .str "0.30", .str "0.20", .str "0.10"⟩,
   ⟨.str "B", .str "0.05"⟩, ⟨.str "C", .str "0.04"⟩,
   ⟨.str "Full", .str "0.02"⟩, ⟨.str "T1", .str "D1", .str "0.50"⟩⟩

def wt_hub : VbcsRow ℕ :=
  ⟨.str "WINCO FOODS LLC", .str "WINCO 002 KENNEWICK DSD", .str "100", 7⟩

def wt_vrows : List (VbcsRow ℕ) := [wt_hub]

def wt_dir : List SiteRow :=
  [⟨.str "WINCO FOODS LLC", .str "200", .str "WINCO 005 BOISE"⟩,
   ⟨.str "WINCO FOODS LLC", .str "300", .str "WINCO 009 SPOKANE"⟩]

def wt_excluded : VbcsRow ℕ :=
  ⟨.str "FAIRFIELD GOURMET FOODS", .str "SITE A", .str "400", 3⟩

def wt_hw : HwOracle := fun _ _ => none

def wt_sarima : SarimaOracle := fun _ _ => none

def wt_obs12 : List (ℕ × ℚ) :=
  [(0, 1), (1, 2), (2, 3), (3, 4), (4, 5), (5, 6), (6, 7), (7, 8), (8, 9),
   (9, 10), (10, 11), (11, 12)]

def wt_obs11 : List (ℕ × ℚ) :=
  [(0, 1), (1, 2), (2, 3), (3, 4), (4, 5), (5, 6), (6, 7), (7, 8), (8, 9),
   (9, 10), (10, 11)]

/-- A fetcher that fails exactly on the first FRED series. -/
def wt_fetchF : String → String → List ObsRow := fun name _ =>
  if name = "PPI Food Industry" then []
  else [⟨.str "2024-01-01", .num 1, name, "FRED"⟩]

def wt_fetchE : String → EiaSeriesConfig → List ObsRow := fun name _ =>
  [⟨.str "2024-01-01", .num 2, name, "EIA"⟩]

def wt_files : List UploadedFile :=
  [⟨"fixed_vbcs.csv",
    [List.replicate 22 (Cell.str "v"), List.replicate 22 (Cell.str "v")]⟩]

/-! ## Supporting lemmas -/

theorem headD_mem {α : Type} {l : List α} (d : α) (h : l ≠ []) : l.headD d ∈ l := by
  cases l with
  | nil => exact absurd rfl h
  | cons x xs => simp [List.headD]

theorem mem_insertSorted {α : Type} (le : α → α → Bool) (x a : α) :
    ∀ l : List α, (a ∈ insertSorted le x l ↔ a = x ∨ a ∈ l) := by
  intro l
  induction l with
  | nil => simp [insertSorted]
  | cons y ys ih =>
    simp only [insertSorted]
    split
    · simp [List.mem_cons]
    · simp only [List.mem_cons, ih]
      tauto

theorem insertSorted_perm {α : Type} (le : α → α → Bool) (x : α) :
    ∀ l : List α, (insertSorted le x l).Perm (x :: l) := by
  intro l
  induction l with
  | nil => exact List.Perm.refl _
  | cons y ys ih =>
    simp only [insertSorted]
    split
    · exact List.Perm.refl _
    · exact (ih.cons y).trans (List.Perm.swap x y ys)

theorem sortBy_perm {α : Type} (le : α → α → Bool) :
    ∀ l : List α, (sortBy le l).Perm l := by
  intro l
  induction l with
  | nil => exact List.Perm.refl _
  | cons x xs ih => exact (insertSorted_perm le x (sortBy le xs)).trans (ih.cons x)

theorem dedupOn_sublist {α κ : Type} [DecidableEq κ] (key : α → κ) :
    ∀ (l : List α) (seen : List κ), (dedupOn key l seen).Sublist l := by
  intro l
  induction l with
  | nil => intro seen; simp [dedupOn]
  | cons x xs ih =>
    intro seen
    simp only [dedupOn]
    split
    · exact (ih seen).cons x
    · exact (ih _).cons₂ x

theorem mem_of_mem_dedupOn {α κ : Type} [DecidableEq κ] {key : α → κ}
    {l : List α} {seen : List κ} {a : α} (h : a ∈ dedupOn key l seen) : a ∈ l :=
  (dedupOn_sublist key l seen).subset h

theorem dedupOn_key_not_seen {α κ : Type} [DecidableEq κ] (key : α → κ) :
    ∀ (l : List α) (seen : List κ) (a : α), a ∈ dedupOn key l seen → key a ∉ seen := by
  intro l
  induction l with
  | nil => intro seen a h; simp [dedupOn] at h
  | cons x xs ih =>
    intro seen a h
    simp only [dedupOn] at h
    split at h
    · exact ih seen a h
    · rcases List.mem_cons.mp h with rfl | h2
      · assumption
      · intro hc
        exact ih _ a h2 (List.mem_cons_of_mem _ hc)

theorem dedupOn_keys_nodup {α κ : Type} [DecidableEq κ] (key : α → κ) :
    ∀ (l : List α) (seen : List κ), ((dedupOn key l seen).map key).Nodup := by
  intro l
  induction l with
  | nil => intro seen; simp [dedupOn]
  | cons x xs ih =>
    intro seen
    simp only [dedupOn]
    split
    · exact ih seen
    · simp only [List.map_cons]
      refine List.Nodup.cons ?_ (ih _)
      intro hmem
      rcases List.mem_map.mp hmem with ⟨y, hy, hky⟩
      exact dedupOn_key_not_seen key xs _ y hy (by rw [hky]; exact List.mem_cons_self _ _)

theorem dedupOn_find {α κ : Type} [DecidableEq κ] (key : α → κ) :
    ∀ (l : List α) (seen : List κ) (a : α), a ∈ dedupOn key l seen →
      l.find? (fun z => decide (key z = key a)) = some a := by
  intro l
  induction l with
  | nil => intro seen a h; simp [dedupOn] at h
  | cons x xs ih =>
    intro seen a h
    simp only [dedupOn] at h
    split at h
    case isTrue hx =>
      have hna := dedupOn_key_not_seen key xs seen a h
      have hne : ¬ (decide (key x = key a)) = true := by
        simp only [decide_eq_true_eq]
        intro he
        exact hna (he ▸ hx)
      exact (@List.find?_cons_of_neg _ (fun z => decide (key z = key a)) x xs hne).trans
        (ih seen a h)
    case isFalse hx =>
      rcases List.mem_cons.mp h with rfl | h2
      · exact @List.find?_cons_of_pos _ (fun z => decide (key z = key a)) a xs (by simp)
      · have hna := dedupOn_key_not_seen key xs _ a h2
        have hne : ¬ (decide (key x = key a)) = true := by
          simp only [decide_eq_true_eq]
          intro he
          exact hna (by rw [← he]; exact List.mem_cons_self _ _)
        exact (@List.find?_cons_of_neg _ (fun z => decide (key z = key a)) x xs hne).trans
          (ih _ a h2)

theorem dedupOn_covers {α κ : Type} [DecidableEq κ] (key : α → κ) :
    ∀ (l : List α) (seen : List κ) (x : α), x ∈ l → key x ∉ seen →
      ∃ y ∈ dedupOn key l seen, key y = key x := by
  intro l
  induction l with
  | nil => intro seen x hx; simp at hx
  | cons z zs ih =>
    intro seen x hx hseen
    simp only [dedupOn]
    rcases List.mem_cons.mp hx with rfl | h2
    · rw [if_neg hseen]
      exact ⟨x, List.mem_cons_self _ _, rfl⟩
    · split
      case isTrue hz => exact ih seen x h2 hseen
      case isFalse hz =>
        by_cases hk : key x = key z
        · exact ⟨z, List.mem_cons_self _ _, hk.symm⟩
        · obtain ⟨y, hy, hky⟩ := ih (key z :: seen) x h2 (by
            intro hc
            rcases List.mem_cons.mp hc with h | h
            · exact hk h
            · exact hseen h)
          exact ⟨y, List.mem_cons_of_mem _ hy, hky⟩

theorem mem_dedupOn_id {α : Type} [DecidableEq α] (l : List α) (x : α) :
    x ∈ dedupOn id l [] ↔ x ∈ l := by
  constructor
  · exact mem_of_mem_dedupOn
  · intro h
    obtain ⟨y, hy, hk⟩ := dedupOn_covers id l [] x h (by simp)
    have hyx : y = x := hk
    exact hyx ▸ hy

theorem charListLt_iff_lex : ∀ a b : List Char,
    charListLt a b = true ↔ List.Lex (fun x y => x < y) a b := by
  intro a
  induction a with
  | nil =>
    intro b
    cases b with
    | nil => simp [charListLt]
    | cons y ys => simp [charListLt, List.Lex.nil]
  | cons x xs ih =>
    intro b
    cases b with
    | nil =>
      simp only [charListLt, Bool.false_eq_true, false_iff]
      intro h
      cases h
    | cons y ys =>
      simp only [charListLt, Bool.or_eq_true, Bool.and_eq_true, beq_iff_eq,
        decide_eq_true_eq]
      constructor
      · rintro (hlt | ⟨rfl, h⟩)
        · exact List.Lex.rel hlt
        · exact List.Lex.cons ((ih ys).mp h)
      · intro h
        cases h with
        | rel h => exact Or.inl h
        | cons h => exact Or.inr ⟨rfl, (ih ys).mpr h⟩

/-- Every row of the pipeline output is a derived (`computeRow`) row. -/
theorem mem_process_eq_computeRow
    {products : List ProductRow} {plant_fees : List PlantFeeRow}
    {milk : List MilkCostRow} {processing : List ProcessingRow}
    {sell_to : List SellToFeeRow} {custom_label : List CustomLabelFeeRow}
    {pallet_fees : List PalletFeeRow} {delivery : List DeliveryFeeRow}
    {uom : List UomRow} {r : FinalRow}
    (hr : r ∈ process_uploaded_files products plant_fees milk processing
      sell_to custom_label pallet_fees delivery uom) :
    ∃ u : UomJoinRow, r = computeRow u := by
  unfold process_uploaded_files at hr
  have h1 := ((sortBy_perm _ _).mem_iff).mp hr
  have h2 := mem_of_mem_dedupOn h1
  unfold derived_rows at h2
  simp only [List.mem_map] at h2
  obtain ⟨u, _, he⟩ := h2
  exact ⟨u, he.symm⟩

/-! ## The claims -/

/-- Claim C1: in every row of the deduplicated output of the price
derivation pipeline, the FOB price column equals exactly the sum of the
nine cost component columns (base milk cost, Class I location and plant
fees, shrink, total processing, packaging, ingredients, sell-to volume
fee, custom label fee, mixed pallet fee), and the delivered price column
equals exactly that FOB price plus the delivery charge. -/
theorem fob_is_component_sum
    (products : List ProductRow) (plant_fees : List PlantFeeRow)
    (milk : List MilkCostRow) (processing : List ProcessingRow)
    (sell_to : List SellToFeeRow) (custom_label : List CustomLabelFeeRow)
    (pallet_fees : List PalletFeeRow) (delivery : List DeliveryFeeRow)
    (uom : List UomRow) (r : FinalRow)
    (hr : r ∈ process_uploaded_files products plant_fees milk processing
      sell_to custom_label pallet_fees delivery uom) :
    r.fob = r.baseMilkCost + r.classIFees + r.shrink + r.totalProcessing +
      r.packaging + r.ingredients + r.sellToVolumeFee + r.customLabelFee +
      r.mixedPalletFee ∧
    r.delivered = r.fob + r.deliveryCharge := by
  obtain ⟨u, rfl⟩ := mem_process_eq_computeRow hr
  exact ⟨rfl, rfl⟩

/-- Witness for C1: the pipeline run on the concrete tables produces a
row, and its FOB and delivered prices satisfy the component sums. -/
theorem fob_is_component_sum_witness :
    wt_row.fob = wt_row.baseMilkCost + wt_row.classIFees + wt_row.shrink +
      wt_row.totalProcessing + wt_row.packaging + wt_row.ingredients +
      wt_row.sellToVolumeFee + wt_row.customLabelFee + wt_row.mixedPalletFee ∧
    wt_row.delivered = wt_row.fob + wt_row.deliveryCharge :=
  fob_is_component_sum wt_products wt_plant_fees wt_milk wt_processing
    wt_sell_to wt_custom_label wt_pallet_fees wt_delivery wt_uom wt_row
    (headD_mem default (by decide))

/-- Claim C6: in every derived row, the shrink cost equals exactly 2% of
the sum of the base milk cost and the Class I location and plant fee. -/
theorem shrink_is_two_percent
    (products : List ProductRow) (plant_fees : List PlantFeeRow)
    (milk : List MilkCostRow) (processing : List ProcessingRow)
    (sell_to : List SellToFeeRow) (custom_label : List CustomLabelFeeRow)
    (pallet_fees : List PalletFeeRow) (delivery : List DeliveryFeeRow)
    (uom : List UomRow) (r : FinalRow)
    (hr : r ∈ process_uploaded_files products plant_fees milk processing
      sell_to custom_label pallet_fees delivery uom) :
    r.shrink = 2 / 100 * (r.baseMilkCost + r.classIFees) := by
  obtain ⟨u, rfl⟩ := mem_process_eq_computeRow hr
  exact mul_comm _ _

/-- Witness for C6 at the concrete pipeline run. -/
theorem shrink_is_two_percent_witness :
    wt_row.shrink = 2 / 100 * (wt_row.baseMilkCost + wt_row.classIFees) :=
  shrink_is_two_percent wt_products wt_plant_fees wt_milk wt_processing
    wt_sell_to wt_custom_label wt_pallet_fees wt_delivery wt_uom wt_row
    (headD_mem default (by decide))

set_option maxHeartbeats 2000000 in
/-- Claim C8: the pipeline is a pure function (running it twice on
identical inputs yields the identical row list, order included), and its
deduplication is exactly `drop_duplicates(keep='first')` on the full
identifying key tuple: the output is a permutation of the deduplicated
derived rows, the deduplicated rows form a subsequence of the derived
rows with pairwise distinct keys, every kept row is the first derived
row bearing its key, and every derived row's key is represented. -/
theorem process_deterministic_dedup
    (products : List ProductRow) (plant_fees : List PlantFeeRow)
    (milk : List MilkCostRow) (processing : List ProcessingRow)
    (sell_to : List SellToFeeRow) (custom_label : List CustomLabelFeeRow)
    (pallet_fees : List PalletFeeRow) (delivery : List DeliveryFeeRow)
    (uom : List UomRow) :
    (process_uploaded_files products plant_fees milk processing sell_to
        custom_label pallet_fees delivery uom =
      process_uploaded_files products plant_fees milk processing sell_to
        custom_label pallet_fees delivery uom) ∧
    ((process_uploaded_files products plant_fees milk processing sell_to
        custom_label pallet_fees delivery uom).Perm
      (dedupOn finalKey (derived_rows products plant_fees milk processing
        sell_to custom_label pallet_fees delivery uom) [])) ∧
    ((dedupOn finalKey (derived_rows products plant_fees milk processing
        sell_to custom_label pallet_fees delivery uom) []).Sublist
      (derived_rows products plant_fees milk processing sell_to custom_label
        pallet_fees delivery uom)) ∧
    (((dedupOn finalKey (derived_rows products plant_fees milk processing
        sell_to custom_label pallet_fees delivery uom) []).map finalKey).Nodup) ∧
    (∀ r ∈ dedupOn finalKey (derived_rows products plant_fees milk processing
        sell_to custom_label pallet_fees delivery uom) [],
      (derived_rows products plant_fees milk processing sell_to custom_label
        pallet_fees delivery uom).find? (fun z => decide (finalKey z = finalKey r)) =
        some r) ∧
    (∀ x ∈ derived_rows products plant_fees milk processing sell_to
        custom_label pallet_fees delivery uom,
      ∃ y ∈ dedupOn finalKey (derived_rows products plant_fees milk processing
        sell_to custom_label pallet_fees delivery uom) [], finalKey y = finalKey x) :=
  by
  refine ⟨rfl, ?_, ?_, ?_, ?_, ?_⟩
  · exact sortBy_perm _ _
  · exact dedupOn_sublist _ _ _
  · exact dedupOn_keys_nodup _ _ _
  · exact fun r hr => dedupOn_find _ _ _ r hr
  · exact fun x hx => dedupOn_covers _ _ _ x hx (by simp)

/-- Witness for C8 at the concrete tables. -/
theorem process_deterministic_dedup_witness :
    wt_out = wt_out ∧
    ((dedupOn finalKey (derived_rows wt_products wt_plant_fees wt_milk
      wt_processing wt_sell_to wt_custom_label wt_pallet_fees wt_delivery
      wt_uom) []).map finalKey).Nodup :=
  ⟨(process_deterministic_dedup wt_products wt_plant_fees wt_milk
      wt_processing wt_sell_to wt_custom_label wt_pallet_fees wt_delivery
      wt_uom).1,
   (process_deterministic_dedup wt_products wt_plant_fees wt_milk
      wt_processing wt_sell_to wt_custom_label wt_pallet_fees wt_delivery
      wt_uom).2.2.2.1⟩

/-- On two present (non-NaN) cells, `compare_volume_tiers` is the
numeric comparison when both normalized tiers parse, and the string
comparison otherwise. -/
theorem compare_volume_tiers_eq (s c : Cell) (hs : s ≠ Cell.nan)
    (hc : c ≠ Cell.nan) :
    compare_volume_tiers s c =
      (match pyFloatChars? (pyUpper (pyStrip (cellStr s).data)),
             pyFloatChars? (pyUpper (pyStrip (cellStr c).data)) with
       | some sn, some cn => decide (sn ≤ cn)
       | _, _ =>
         !charListLt (pyUpper (pyStrip (cellStr c).data))
           (pyUpper (pyStrip (cellStr s).data))) := by
  cases s <;> cases c <;>
    first
    | rfl
    | exact absurd rfl hs
    | exact absurd rfl hc

/-- Claim C2: the volume-tier filter retains a joined combination if and
only if the custom-label bracket is at least the sell-to bracket: rows
with a missing bracket on either side are retained unconditionally; when
both normalized brackets parse as pure numbers the rule is
custom-label number ≥ sell-to number; otherwise the rule is the
codepoint-lexicographic (alphabetical, so A < B < C < D < E) comparison
custom-label ≥ sell-to on the stripped upper-cased tier strings. -/
theorem volume_tier_rule (rows : List CartRow) (r : CartRow) (hr : r ∈ rows) :
    ((r.sellTo.sellToVolumeBracket = Cell.nan ∨
        r.customLabel.customLabelBracket = Cell.nan) →
      r ∈ volume_tier_filter rows) ∧
    (∀ sn cn,
      pyFloatChars? (pyUpper (pyStrip (cellStr r.sellTo.sellToVolumeBracket).data)) =
        some sn →
      pyFloatChars? (pyUpper (pyStrip (cellStr r.customLabel.customLabelBracket).data)) =
        some cn →
      (r ∈ volume_tier_filter rows ↔ sn ≤ cn)) ∧
    ((pyFloatChars? (pyUpper (pyStrip (cellStr r.sellTo.sellToVolumeBracket).data)) =
        none ∨
      pyFloatChars? (pyUpper (pyStrip (cellStr r.customLabel.customLabelBracket).data)) =
        none) →
      r.sellTo.sellToVolumeBracket ≠ Cell.nan →
      r.customLabel.customLabelBracket ≠ Cell.nan →
      (r ∈ volume_tier_filter rows ↔
        ¬ List.Lex (fun x y => x < y)
          (pyUpper (pyStrip (cellStr r.customLabel.customLabelBracket).data))
          (pyUpper (pyStrip (cellStr r.sellTo.sellToVolumeBracket).data)))) := by
  have hmem : r ∈ volume_tier_filter rows ↔
      compare_volume_tiers r.sellTo.sellToVolumeBracket
        r.customLabel.customLabelBracket = true := by
    unfold volume_tier_filter
    rw [List.mem_filter]
    simp [hr]
  have hnanparse : pyFloatChars? (pyUpper (pyStrip (cellStr Cell.nan).data)) = none := by
    decide
  refine ⟨?_, ?_, ?_⟩
  · intro h
    apply List.mem_filter.mpr
    refine ⟨hr, ?_⟩
    rcases h with h | h
    · rw [h]
      cases r.customLabel.customLabelBracket <;> rfl
    · rw [h]
      cases r.sellTo.sellToVolumeBracket <;> rfl
  · intro sn cn hs hc
    have hsnan : r.sellTo.sellToVolumeBracket ≠ Cell.nan := by
      intro h
      rw [h, hnanparse] at hs
      cases hs
    have hcnan : r.customLabel.customLabelBracket ≠ Cell.nan := by
      intro h
      rw [h, hnanparse] at hc
      cases hc
    rw [hmem, compare_volume_tiers_eq _ _ hsnan hcnan, hs, hc]
    simp
  · intro hpar hsnan hcnan
    rw [hmem, compare_volume_tiers_eq _ _ hsnan hcnan]
    have hiff := charListLt_iff_lex
      (pyUpper (pyStrip (cellStr r.customLabel.customLabelBracket).data))
      (pyUpper (pyStrip (cellStr r.sellTo.sellToVolumeBracket).data))
    have hkey : ((!charListLt
        (pyUpper (pyStrip (cellStr r.customLabel.customLabelBracket).data))
        (pyUpper (pyStrip (cellStr r.sellTo.sellToVolumeBracket).data))) = true) ↔
        ¬ List.Lex (fun x y => x < y)
          (pyUpper (pyStrip (cellStr r.customLabel.customLabelBracket).data))
          (pyUpper (pyStrip (cellStr r.sellTo.sellToVolumeBracket).data)) := by
      constructor
      · intro hb hl
        have hcl := hiff.mpr hl
        rw [hcl] at hb
        cases hb
      · intro hl
        rw [Bool.not_eq_true']
        cases hcl : charListLt
          (pyUpper (pyStrip (cellStr r.customLabel.customLabelBracket).data))
          (pyUpper (pyStrip (cellStr r.sellTo.sellToVolumeBracket).data))
        · rfl
        · exact absurd (hiff.mp hcl) hl
    rcases hpar with h | h
    · rw [h]
      cases hC : pyFloatChars?
          (pyUpper (pyStrip (cellStr r.customLabel.customLabelBracket).data)) <;>
        exact hkey
    · rw [h]
      cases hD : pyFloatChars?
          (pyUpper (pyStrip (cellStr r.sellTo.sellToVolumeBracket).data)) <;>
        exact hkey

/-- Witness for C2: the concrete B/C combination is retained by the
alphabetical rule. -/
theorem volume_tier_rule_witness :
    wt_cart ∈ volume_tier_filter [wt_cart] ↔
      ¬ List.Lex (fun x y => x < y)
        (pyUpper (pyStrip (cellStr wt_cart.customLabel.customLabelBracket).data))
        (pyUpper (pyStrip (cellStr wt_cart.sellTo.sellToVolumeBracket).data)) :=
  (volume_tier_rule [wt_cart] wt_cart (List.mem_singleton_self _)).2.2
    (Or.inl (by decide)) (by decide) (by decide)

/-- Claim C3: cross-dock expansion per hub customer group.  When the
group has exactly one hub template row, the expanded group is the
original group rows followed by one substituted copy of the template per
eligible destination site, so the row count grows by exactly the number
of eligible sites; a substituted copy carries the template's price
columns (`rest`) and the destination's customer/site columns.  When the
group has no hub-site row or no destination sites, the group's rows pass
through unchanged.  This holds independently for Winco (hub site
WINCO 002 KENNEWICK DSD) and URM/TOPCO (hub site TOWN PUMP), and
`handle_crossdock` is the concatenation of the untouched other rows with
both expanded groups. -/
theorem handle_crossdock_expansion {α : Type} (vbcs : List (VbcsRow α))
    (directory : List SiteRow) :
    (∀ s : VbcsRow α, winco_source_site vbcs = [s] →
      winco_final vbcs directory =
        winco_initial vbcs ++ (winco_dest_sites directory).map (substSite s) ∧
      (winco_final vbcs directory).length =
        (winco_initial vbcs).length + (winco_dest_sites directory).length) ∧
    (winco_source_site vbcs = [] ∨ winco_dest_sites directory = [] →
      winco_final vbcs directory = winco_initial vbcs) ∧
    (∀ s : VbcsRow α, urm_source_site vbcs = [s] →
      urm_final vbcs directory =
        urm_customers vbcs ++ (urm_dest_sites directory).map (substSite s) ∧
      (urm_final vbcs directory).length =
        (urm_customers vbcs).length + (urm_dest_sites directory).length) ∧
    (urm_source_site vbcs = [] ∨ urm_dest_sites directory = [] →
      urm_final vbcs directory = urm_customers vbcs) ∧
    (∀ (s : VbcsRow α) (d : SiteRow),
      (substSite s d).rest = s.rest ∧
      (substSite s d).customername = d.partyName ∧
      (substSite s d).shiptositename = d.partySiteName ∧
      (substSite s d).customersitenumber = d.partySiteNumber) ∧
    (handle_crossdock vbcs directory =
      final_other_customers vbcs ++ winco_final vbcs directory ++
        urm_final vbcs directory) := by
  refine ⟨?_, ?_, ?_, ?_, fun s d => ⟨rfl, rfl, rfl, rfl⟩, rfl⟩
  · intro s hs
    have heq : winco_final vbcs directory =
        winco_initial vbcs ++ (winco_dest_sites directory).map (substSite s) := by
      unfold winco_final
      rw [hs]
      cases hd : winco_dest_sites directory with
      | nil => simp
      | cons d ds => simp
    exact ⟨heq, by rw [heq]; simp⟩
  · intro h
    unfold winco_final
    rcases h with h | h <;> simp [h]
  · intro s hs
    have heq : urm_final vbcs directory =
        urm_customers vbcs ++ (urm_dest_sites directory).map (substSite s) := by
      unfold urm_final
      rw [hs]
      cases hd : urm_dest_sites directory with
      | nil => simp
      | cons d ds => simp
    exact ⟨heq, by rw [heq]; simp⟩
  · intro h
    unfold urm_final
    rcases h with h | h <;> simp [h]

/-- Witness for C3: one Winco hub row and two eligible destination
sites give two substituted rows. -/
theorem handle_crossdock_expansion_witness :
    winco_final wt_vrows wt_dir =
      winco_initial wt_vrows ++ (winco_dest_sites wt_dir).map (substSite wt_hub) ∧
    (winco_final wt_vrows wt_dir).length =
      (winco_initial wt_vrows).length + (winco_dest_sites wt_dir).length :=
  (handle_crossdock_expansion wt_vrows wt_dir).1 wt_hub (by decide)

/-- Claim C10: the final customer split of `generate_vbcs_files` routes
every row whose customer name contains URM or TOPCO case-insensitively
to the urm output and never to the batch output; the two customers on
the cross-dock exclusion list both match through the URM inside
GOURMET, even though `handle_crossdock` keeps them out of its URM/TOPCO
group (last conjunct). -/
theorem urm_split_contains {α : Type} [DecidableEq α]
    (rows : List (VbcsRow α)) (r : VbcsRow α) (hr : r ∈ rows)
    (hm : strContainsCI r.customername ["URM", "TOPCO"] = true) :
    r ∈ urm_vbcs rows ∧ r ∉ batch_vbcs rows ∧
    strContainsCI (Cell.str "FAIRFIELD GOURMET FOODS") ["URM", "TOPCO"] = true ∧
    strContainsCI (Cell.str "DFS Gourmet Specialties, Inc., dba Better Butter")
      ["URM", "TOPCO"] = true ∧
    (∀ rows2 : List (VbcsRow α), ∀ x ∈ rows2,
      cellIsin x.customername unwanted_customers = true →
        x ∉ urm_customers rows2) := by
  refine ⟨?_, ?_, by decide, by decide, ?_⟩
  · unfold urm_vbcs
    exact (mem_dedupOn_id _ _).mpr (List.mem_filter.mpr ⟨hr, hm⟩)
  · intro hmem
    unfold batch_vbcs at hmem
    have hcond := (List.mem_filter.mp (mem_of_mem_dedupOn hmem)).2
    have hbig : strContainsCI r.customername ["URM", "TOPCO", "WINCO"] = true := by
      cases hc : r.customername with
      | str s =>
        rw [hc] at hm
        simp only [strContainsCI, List.any_cons, List.any_nil,
          Bool.or_eq_true, Bool.or_false] at hm ⊢
        tauto
      | nan => rw [hc] at hm; simp [strContainsCI] at hm
      | num q => rw [hc] at hm; simp [strContainsCI] at hm
    rw [hbig] at hcond
    cases hcond
  · intro rows2 x hx hisin hmemu
    unfold urm_customers at hmemu
    have h2 := (List.mem_filter.mp hmemu).2
    rw [hisin] at h2
    cases h2

/-- Witness for C10: the excluded customer FAIRFIELD GOURMET FOODS lands
in the urm split and not in the batch split. -/
theorem urm_split_contains_witness :
    wt_excluded ∈ urm_vbcs [wt_excluded] ∧
    wt_excluded ∉ batch_vbcs [wt_excluded] :=
  ⟨(urm_split_contains [wt_excluded] wt_excluded (List.mem_singleton_self _)
      (by decide)).1,
   (urm_split_contains [wt_excluded] wt_excluded (List.mem_singleton_self _)
      (by decide)).2.1⟩

theorem momPctChange_length (values : List ℚ) :
    (momPctChange values).length = values.length - 1 := by
  simp only [momPctChange, List.length_zipWith, List.length_tail]
  omega

theorem compound_length (last : ℚ) :
    ∀ ps : List ℚ, (compound last ps).length = ps.length := by
  intro ps
  induction ps generalizing last with
  | nil => rfl
  | cons p ps ih => simp [compound, ih]

theorem rowsZip_maps :
    ∀ (ds : List ℕ) (bs us ls : List ℚ),
      ds.length = bs.length → bs.length = us.length → us.length = ls.length →
      (rowsZip ds bs us ls).map ForecastPoint.baseline = bs ∧
      (rowsZip ds bs us ls).map ForecastPoint.upper = us ∧
      (rowsZip ds bs us ls).map ForecastPoint.lower = ls := by
  intro ds
  induction ds with
  | nil =>
    intro bs us ls h1 h2 h3
    simp only [List.length_nil] at h1 h2 h3
    have hb : bs = [] := List.length_eq_zero.mp (by omega)
    have hu : us = [] := List.length_eq_zero.mp (by omega)
    have hl : ls = [] := List.length_eq_zero.mp (by omega)
    subst hb hu hl
    exact ⟨rfl, rfl, rfl⟩
  | cons d ds ih =>
    intro bs us ls h1 h2 h3
    cases bs with
    | nil => simp at h1
    | cons b bs =>
      cases us with
      | nil => simp at h2
      | cons u us =>
        cases ls with
        | nil => simp at h3
        | cons v ls =>
          simp only [List.length_cons] at h1 h2 h3
          obtain ⟨e1, e2, e3⟩ := ih bs us ls (by omega) (by omega) (by omega)
          simp [rowsZip, e1, e2, e3]

/-- Claim C4: a series with fewer than 12 observations, or with fewer
than 6 month-over-month percentage-change points remaining after the
leading NaN is dropped (there are `n - 1` such points), is skipped
entirely: its outcome is `skipped` (the bare `continue`, not an error),
and the engine's output over a series list containing it is exactly the
output without it — no ForecastPoint row is produced for it. -/
theorem get_forecast_skip (hw : HwOracle) (sarima : SarimaOracle)
    (horizon : ℕ) (name : String) (obs : List (ℕ × ℚ))
    (rest : List (String × List (ℕ × ℚ)))
    (h : obs.length < 12 ∨ obs.length - 1 < 6) :
    get_forecast_series hw sarima horizon obs = SeriesOutcome.skipped ∧
    get_forecast_data hw sarima horizon ((name, obs) :: rest) =
      get_forecast_data hw sarima horizon rest := by
  have hskip : get_forecast_series hw sarima horizon obs = SeriesOutcome.skipped := by
    unfold get_forecast_series
    by_cases h12 : obs.length < 12
    · simp [h12]
    · have hlt : obs.length - 1 < 6 := h.resolve_left h12
      have h1 : (seriesY obs).length ≤
          (momPctChange ((seriesSorted obs).map Prod.snd)).length :=
        List.reduceOption_length_le _
      rw [momPctChange_length] at h1
      have h2 : ((seriesSorted obs).map Prod.snd).length = obs.length := by
        rw [List.length_map]
        exact (sortBy_perm _ obs).length_eq
      have hy : (seriesY obs).length < 6 := by omega
      simp [h12, hy]
  refine ⟨hskip, ?_⟩
  unfold get_forecast_data
  rw [List.flatMap_cons, hskip]
  simp [outcomeRows]

/-- Witness for C4: an 11-month history is skipped and contributes no
rows. -/
theorem get_forecast_skip_witness :
    get_forecast_series wt_hw wt_sarima 3 wt_obs11 = SeriesOutcome.skipped ∧
    get_forecast_data wt_hw wt_sarima 3 [("X", wt_obs11)] =
      get_forecast_data wt_hw wt_sarima 3 [] :=
  get_forecast_skip wt_hw wt_sarima 3 "X" wt_obs11 [] (Or.inl (by decide))

/-- Claim C5: for a processed series, if the Holt-Winters fit raises,
every baseline value is the flat continuation of the last observed
value; and whenever the SARIMA fit raises — whether or not the baseline
fit succeeded — the upper bounds are baseline × 1.1 and the lower bounds
baseline × 0.9 at every horizon step. -/
theorem get_forecast_fallbacks (hw : HwOracle) (sarima : SarimaOracle)
    (horizon : ℕ) (obs : List (ℕ × ℚ))
    (h12 : ¬ obs.length < 12) (h6 : ¬ (seriesY obs).length < 6) :
    (hw (seriesY obs) horizon = none →
      (outcomeRows (get_forecast_series hw sarima horizon obs)).map
          ForecastPoint.baseline =
        List.replicate horizon (seriesLast obs)) ∧
    (sarima (seriesY obs) horizon = none →
      (outcomeRows (get_forecast_series hw sarima horizon obs)).map
          ForecastPoint.upper =
        ((outcomeRows (get_forecast_series hw sarima horizon obs)).map
          ForecastPoint.baseline).map (fun v => v * (11 / 10)) ∧
      (outcomeRows (get_forecast_series hw sarima horizon obs)).map
          ForecastPoint.lower =
        ((outcomeRows (get_forecast_series hw sarima horizon obs)).map
          ForecastPoint.baseline).map (fun v => v * (9 / 10))) := by
  have hdates : ((List.range horizon).map
      (fun i => ((seriesSorted obs).map Prod.fst).getLastD 0 + i + 1)).length =
      horizon := by
    simp
  constructor
  · intro hhw
    cases hsar : sarima (seriesY obs) horizon with
    | none =>
      simp only [get_forecast_series, if_neg h12, if_neg h6, hhw, hsar,
        outcomeRows]
      have hlen : (List.replicate horizon (seriesLast obs)).length = horizon := by
        simp
      exact (rowsZip_maps _ _ _ _ (by simp) (by simp) (by simp)).1
    | some ci =>
      simp only [get_forecast_series, if_neg h12, if_neg h6, hhw, hsar,
        outcomeRows]
      exact (rowsZip_maps _ _ _ _
        (by simp [compound_length, ci.2]) (by simp [compound_length, ci.2])
        (by simp [compound_length, ci.2])).1
  · intro hsar
    cases hhw : hw (seriesY obs) horizon with
    | none =>
      simp only [get_forecast_series, if_neg h12, if_neg h6, hhw, hsar,
        outcomeRows]
      obtain ⟨e1, e2, e3⟩ := rowsZip_maps
        ((List.range horizon).map
          (fun i => ((seriesSorted obs).map Prod.fst).getLastD 0 + i + 1))
        (List.replicate horizon (seriesLast obs))
        ((List.replicate horizon (seriesLast obs)).map (fun v => v * (11 / 10)))
        ((List.replicate horizon (seriesLast obs)).map (fun v => v * (9 / 10)))
        (by simp) (by simp) (by simp)
      rw [e1, e2, e3]
      exact ⟨rfl, rfl⟩
    | some fc =>
      simp only [get_forecast_series, if_neg h12, if_neg h6, hhw, hsar,
        outcomeRows]
      obtain ⟨e1, e2, e3⟩ := rowsZip_maps
        ((List.range horizon).map
          (fun i => ((seriesSorted obs).map Prod.fst).getLastD 0 + i + 1))
        (compound (seriesLast obs) fc.1)
        ((compound (seriesLast obs) fc.1).map (fun v => v * (11 / 10)))
        ((compound (seriesLast obs) fc.1).map (fun v => v * (9 / 10)))
        (by simp [compound_length, fc.2]) (by simp) (by simp)
      rw [e1, e2, e3]
      exact ⟨rfl, rfl⟩

/-- Witness for C5: with both fits failing on a 12-month history, the
baselines are the flat continuation of the last value. -/
theorem get_forecast_fallbacks_witness :
    (outcomeRows (get_forecast_series wt_hw wt_sarima 3 wt_obs12)).map
        ForecastPoint.baseline =
      List.replicate 3 (seriesLast wt_obs12) :=
  (get_forecast_fallbacks wt_hw wt_sarima 3 wt_obs12 (by decide) (by decide)).1
    rfl

/-- The fetch loop explicitly: the successes are the fetches of the
series with non-empty results, in order; the failures the tagged names
of the rest, in order. -/
theorem fetch_all_aux_eq {β γ : Type} (fetch : String → β → List γ)
    (tag : String) :
    ∀ cfg : List (String × β),
      fetch_all_aux fetch tag cfg =
        ((cfg.filter fun p => !(fetch p.1 p.2).isEmpty).map fun p => fetch p.1 p.2,
         (cfg.filter fun p => (fetch p.1 p.2).isEmpty).map fun p => p.1 ++ tag) := by
  intro cfg
  induction cfg with
  | nil => rfl
  | cons p rest ih =>
    simp only [fetch_all_aux, ih]
    cases hpe : (fetch p.1 p.2).isEmpty <;> simp [List.filter_cons, hpe]

/-- A Boolean predicate splits a list's length between the rows passing
it and the rows failing it. -/
theorem length_filter_partition {π : Type} (p : π → Bool) :
    ∀ l : List π,
      (l.filter fun x => !(p x)).length + (l.filter p).length = l.length := by
  intro l
  induction l with
  | nil => rfl
  | cons x xs ih =>
    cases hx : p x <;> simp [List.filter_cons, hx] <;> omega

/-- The partition facts for one fetch loop over configured series with
distinct names. -/
theorem fetch_all_aux_facts {β γ : Type} (fetch : String → β → List γ)
    (tag : String) (cfg : List (String × β))
    (hnd : (cfg.map Prod.fst).Nodup) :
    ((fetch_all_aux fetch tag cfg).1.length +
       (fetch_all_aux fetch tag cfg).2.length = cfg.length) ∧
    (∀ p ∈ cfg,
      ((fetch p.1 p.2).isEmpty = false →
        fetch p.1 p.2 ∈ (fetch_all_aux fetch tag cfg).1 ∧
        p.1 ++ tag ∉ (fetch_all_aux fetch tag cfg).2) ∧
      ((fetch p.1 p.2).isEmpty = true →
        p.1 ++ tag ∈ (fetch_all_aux fetch tag cfg).2 ∧
        fetch p.1 p.2 ∉ (fetch_all_aux fetch tag cfg).1)) := by
  rw [fetch_all_aux_eq]
  constructor
  · simp only [List.length_map]
    have hpart := length_filter_partition
      (fun p => (fetch p.1 p.2).isEmpty) cfg
    omega
  · intro p hp
    constructor
    · intro hpe
      constructor
      · exact List.mem_map.mpr ⟨p, List.mem_filter.mpr ⟨hp, by simp [hpe]⟩, rfl⟩
      · intro hmem
        obtain ⟨q, hq, he⟩ := List.mem_map.mp hmem
        have hq1 := List.mem_filter.mp hq
        have hdata : q.1.data ++ tag.data = p.1.data ++ tag.data := by
          have h0 := congrArg String.data he
          simpa [String.data_append] using h0
        have hname : q.1 = p.1 := String.ext (List.append_cancel_right hdata)
        have hqp : q = p := List.inj_on_of_nodup_map hnd hq1.1 hp hname
        have hqe := hq1.2
        rw [hqp, hpe] at hqe
        cases hqe
    · intro hpe
      constructor
      · exact List.mem_map.mpr ⟨p, List.mem_filter.mpr ⟨hp, by simp [hpe]⟩, rfl⟩
      · intro hmem
        obtain ⟨q, hq, he⟩ := List.mem_map.mp hmem
        have hq2 := (List.mem_filter.mp hq).2
        rw [he, hpe] at hq2
        simp at hq2

/-- Claim C7: in each bulk fetch, every configured series lands in
exactly one of the two returned components — its frame among the
successes when its fetch is non-empty, its tagged name among the
failures when it is empty, never both — with the component sizes summing
to the series count; the loop is total, so one series' failure never
prevents the others from being fetched. -/
theorem fetch_all_series_partition
    (fetchF : String → String → List ObsRow)
    (fetchE : String → EiaSeriesConfig → List ObsRow) :
    ((fetch_all_fred_data fetchF).1.length +
       (fetch_all_fred_data fetchF).2.length = FRED_SERIES.length) ∧
    (∀ p ∈ FRED_SERIES,
      ((fetchF p.1 p.2).isEmpty = false →
        fetchF p.1 p.2 ∈ (fetch_all_fred_data fetchF).1 ∧
        p.1 ++ " (FRED)" ∉ (fetch_all_fred_data fetchF).2) ∧
      ((fetchF p.1 p.2).isEmpty = true →
        p.1 ++ " (FRED)" ∈ (fetch_all_fred_data fetchF).2 ∧
        fetchF p.1 p.2 ∉ (fetch_all_fred_data fetchF).1)) ∧
    ((fetch_all_eia_data fetchE).1.length +
       (fetch_all_eia_data fetchE).2.length = EIA_SERIES.length) ∧
    (∀ p ∈ EIA_SERIES,
      ((fetchE p.1 p.2).isEmpty = false →
        fetchE p.1 p.2 ∈ (fetch_all_eia_data fetchE).1 ∧
        p.1 ++ " (EIA)" ∉ (fetch_all_eia_data fetchE).2) ∧
      ((fetchE p.1 p.2).isEmpty = true →
        p.1 ++ " (EIA)" ∈ (fetch_all_eia_data fetchE).2 ∧
        fetchE p.1 p.2 ∉ (fetch_all_eia_data fetchE).1)) := by
  have hF := fetch_all_aux_facts fetchF " (FRED)" FRED_SERIES (by decide)
  have hE := fetch_all_aux_facts fetchE " (EIA)" EIA_SERIES (by decide)
  exact ⟨hF.1, hF.2, hE.1, hE.2⟩

/-- Witness for C7 at a fetcher failing exactly on the first FRED
series. -/
theorem fetch_all_series_partition_witness :
    ((fetch_all_fred_data wt_fetchF).1.length +
       (fetch_all_fred_data wt_fetchF).2.length = FRED_SERIES.length) ∧
    ((fetch_all_eia_data wt_fetchE).1.length +
       (fetch_all_eia_data wt_fetchE).2.length = EIA_SERIES.length) :=
  ⟨(fetch_all_series_partition wt_fetchF wt_fetchE).1,
   (fetch_all_series_partition wt_fetchF wt_fetchE).2.2.1⟩

/-- Claim C9: the combiner's output contains each input row truncated to
its first 21 columns with the source-file tag appended (up to the
removal of exact duplicates, which keeps the first occurrence of each
value, so every tagged truncated row value is present), contains
nothing else, has no exact duplicate rows, and every output row has at
most 21 + 1 columns. -/
theorem run_combine_vbcs_spec (files : List UploadedFile) :
    (∀ f ∈ files, ∀ r ∈ f.rows,
      r.take 21 ++ [Cell.str f.name] ∈ run_combine_vbcs files) ∧
    (run_combine_vbcs files).Nodup ∧
    (∀ y ∈ run_combine_vbcs files, ∃ f ∈ files, ∃ r ∈ f.rows,
      y = r.take 21 ++ [Cell.str f.name]) ∧
    (∀ y ∈ run_combine_vbcs files, y.length ≤ 22) := by
  refine ⟨?_, ?_, ?_, ?_⟩
  · intro f hf r hr
    unfold run_combine_vbcs
    exact (mem_dedupOn_id _ _).mpr
      (List.mem_flatMap.mpr ⟨f, hf, List.mem_map.mpr ⟨r, hr, rfl⟩⟩)
  · have h := dedupOn_keys_nodup (id : List Cell → List Cell)
      (files.flatMap fun f => f.rows.map fun r => r.take 21 ++ [Cell.str f.name]) []
    simpa [run_combine_vbcs] using h
  · intro y hy
    unfold run_combine_vbcs at hy
    obtain ⟨f, hf, hy2⟩ := List.mem_flatMap.mp (mem_of_mem_dedupOn hy)
    obtain ⟨r, hr, he⟩ := List.mem_map.mp hy2
    exact ⟨f, hf, r, hr, he.symm⟩
  · intro y hy
    unfold run_combine_vbcs at hy
    obtain ⟨f, hf, hy2⟩ := List.mem_flatMap.mp (mem_of_mem_dedupOn hy)
    obtain ⟨r, hr, he⟩ := List.mem_map.mp hy2
    rw [← he]
    simp only [List.length_append, List.length_take, List.length_cons,
      List.length_nil]
    omega

/-- Witness for C9: a file of two identical 22-column rows yields the
tagged 21-column truncation, without duplicates. -/
theorem run_combine_vbcs_spec_witness :
    (List.replicate 22 (Cell.str "v")).take 21 ++ [Cell.str "fixed_vbcs.csv"] ∈
      run_combine_vbcs wt_files ∧
    (run_combine_vbcs wt_files).Nodup :=
  ⟨(run_combine_vbcs_spec wt_files).1
      ⟨"fixed_vbcs.csv",
        [List.replicate 22 (Cell.str "v"), List.replicate 22 (Cell.str "v")]⟩
      (List.mem_singleton_self _)
      (List.replicate 22 (Cell.str "v")) (List.mem_cons_self _ _),
   (run_combine_vbcs_spec wt_files).2.1⟩

end PricingExec
